import Mathlib

/-!
Verification of the image/PDF rename-and-export pipeline in `main.py`
(pdf_renamer). The Python source is shallowly embedded: the mutable
fields of the `Api` object become an explicit `ApiState`, Python `int`
arithmetic becomes `ℤ` (Python `%` on a positive modulus coincides with
`Int.emod`), Python `float` inputs of the coordinate mapper are modelled
exactly as `ℚ`, and `int(...)` truncation toward zero becomes `pytrunc`.
File-system queries (`os.path.exists`) are abstracted as a predicate
`String → Bool`; EXIF reading is abstracted as an `Option ℕ` holding the
value of orientation tag 274 when the source image carries one.
-/

/-- Python `int(q)` truncates toward zero: floor for nonnegative values,
ceiling for negative values. -/
def pytrunc (q : ℚ) : ℤ := if 0 ≤ q then ⌊q⌋ else ⌈q⌉

/-- Lower-casing of a string, character by character
(models Python `str.lower` on ASCII data). -/
def lowerStr (s : String) : String := ⟨s.data.map Char.toLower⟩

/-- Models Python `c in s` for a single character `c`. -/
def containsChar (s : String) (c : Char) : Bool := s.data.contains c

/-- Index of the last occurrence of `c` in `cs`, or `-1` when absent
(models Python `str.rfind`). -/
def rfindIdx : List Char → Char → ℤ
  | [], _ => -1
  | a :: as, c =>
      let r := rfindIdx as c
      if 0 ≤ r then r + 1 else if a = c then 0 else -1

/-- The mutable session fields of the Python `Api` object
(`main.py` lines 46-49). -/
structure ApiState where
  images : List String
  current_index : ℕ
  save_path : String
  rotation : ℤ
deriving DecidableEq

/-- Success condition of `Api._get_current_image_data` (`main.py` line 137):
a non-empty asset list with the active index in bounds. Decode failures are
environmental and not modelled. -/
def get_data_ok (st : ApiState) : Bool :=
  decide (st.images ≠ [] ∧ st.current_index < st.images.length)

/-- `Api.next_image` (`main.py` lines 193-199): advance circularly,
reset rotation, re-derive the preview. -/
def next_image (st : ApiState) : ApiState × Bool :=
  if st.images = [] then (st, false)
  else
    let st' := { st with
      current_index := (st.current_index + 1) % st.images.length,
      rotation := 0 }
    (st', get_data_ok st')

/-- `Api.prev_image` (`main.py` lines 201-207): Python `(i - 1) % n`
on ints is `Int.emod`, nonnegative for `n > 0`. -/
def prev_image (st : ApiState) : ApiState × Bool :=
  if st.images = [] then (st, false)
  else
    let st' := { st with
      current_index := (((st.current_index : ℤ) - 1) % (st.images.length : ℤ)).toNat,
      rotation := 0 }
    (st', get_data_ok st')

/-- `Api.goto_image` (`main.py` lines 209-219): 1-based index, rejected
without state change when out of range. -/
def goto_image (st : ApiState) (index : ℤ) : ApiState × Bool :=
  if st.images = [] then (st, false)
  else
    let actual := index - 1
    if actual < 0 ∨ (st.images.length : ℤ) ≤ actual then (st, false)
    else
      let st' := { st with current_index := actual.toNat, rotation := 0 }
      (st', get_data_ok st')

/-- `Api.rotate_left` (`main.py` lines 221-224): the rotation field is
updated unconditionally, then the preview derivation reports success or
failure. -/
def rotate_left (st : ApiState) : ApiState × Bool :=
  let st' := { st with rotation := (st.rotation - 90) % 360 }
  (st', get_data_ok st')

/-- `Api.rotate_right` (`main.py` lines 226-229). -/
def rotate_right (st : ApiState) : ApiState × Bool :=
  let st' := { st with rotation := (st.rotation + 90) % 360 }
  (st', get_data_ok st')

/-- A single rotate button press. -/
inductive RotDir where
  | left
  | right
deriving DecidableEq

/-- Effect of one rotate operation on the rotation field alone
(`main.py` lines 223 and 228). -/
def rotate_step : RotDir → ℤ → ℤ
  | .left, r => (r - 90) % 360
  | .right, r => (r + 90) % 360

/-- Folding a sequence of rotate presses over the rotation field. -/
def applyRotations (ds : List RotDir) (r : ℤ) : ℤ :=
  ds.foldl (fun a d => rotate_step d a) r

/-- Reported (width, height) of the canonical buffer under rotation `r`:
`img.rotate(-r, expand=True)` (`main.py` line 147) swaps the dimensions
exactly when `r` is an odd multiple of 90. -/
def rotated_dims (w h : ℕ) (r : ℤ) : ℕ × ℕ :=
  if r % 180 = 0 then (w, h) else (h, w)

lemma rotate_step_left (r : ℤ) : rotate_step .left r = (r - 90) % 360 := rfl

lemma rotate_step_right (r : ℤ) : rotate_step .right r = (r + 90) % 360 := rfl

lemma applyRotations_nil (r : ℤ) : applyRotations [] r = r := rfl

lemma applyRotations_cons (d : RotDir) (ds : List RotDir) (r : ℤ) :
    applyRotations (d :: ds) r = applyRotations ds (rotate_step d r) := rfl

lemma applyRotations_emod (ds : List RotDir) (r : ℤ) :
    applyRotations ds r % 360 =
      (r + 90 * ((ds.count .right : ℤ) - (ds.count .left : ℤ))) % 360 := by
  induction ds generalizing r with
  | nil => simp [applyRotations_nil]
  | cons d ds ih =>
      rw [applyRotations_cons, ih]
      cases d <;>
        · simp only [rotate_step, List.count_cons, beq_iff_eq, reduceCtorEq,
            if_false, if_true, reduceIte]
          omega

lemma applyRotations_range (ds : List RotDir) (r : ℤ)
    (hr : 0 ≤ r ∧ r < 360) :
    0 ≤ applyRotations ds r ∧ applyRotations ds r < 360 := by
  induction ds generalizing r with
  | nil => simpa [applyRotations_nil] using hr
  | cons d ds ih =>
      rw [applyRotations_cons]
      refine ih _ ?_
      cases d <;> simp only [rotate_step] <;> omega

/-- Claim C4: rotation state is additive modulo 360 — `rotate_right` adds 90
and `rotate_left` subtracts 90, each reduced modulo 360 into
`{0, 90, 180, 270}`; any sequence of quarter-turns whose signed total is a
multiple of 360 (in particular an equal number of left and right presses)
returns the rotation to 0 and leaves the reported width/height unchanged. -/
theorem c4_rotation_additive_mod_360 :
    (∀ r : ℤ, rotate_step .right r = (r + 90) % 360 ∧
      rotate_step .left r = (r - 90) % 360) ∧
    (∀ (d : RotDir) (r : ℤ), (r = 0 ∨ r = 90 ∨ r = 180 ∨ r = 270) →
      rotate_step d r = 0 ∨ rotate_step d r = 90 ∨
      rotate_step d r = 180 ∨ rotate_step d r = 270) ∧
    (∀ (ds : List RotDir) (w h : ℕ),
      (4 : ℤ) ∣ ((ds.count .right : ℤ) - (ds.count .left : ℤ)) →
      applyRotations ds 0 = 0 ∧ rotated_dims w h (applyRotations ds 0) = (w, h)) := by
  refine ⟨fun r => ⟨rfl, rfl⟩, ?_, ?_⟩
  · intro d r hr
    cases d <;> rcases hr with h | h | h | h <;> subst h <;> decide
  · intro ds w h hdvd
    obtain ⟨m, hm⟩ := hdvd
    have hmod := applyRotations_emod ds 0
    have hrange := applyRotations_range ds 0 (by omega)
    have hzero : applyRotations ds 0 = 0 := by
      rw [hm] at hmod
      omega
    exact ⟨hzero, by rw [hzero]; rfl⟩

/-- Witness for C4 at the sequence left, left, right, right. -/
theorem c4_rotation_additive_mod_360_witness :
    ((4 : ℤ) ∣ (([RotDir.left, .left, .right, .right].count RotDir.right : ℤ) -
      ([RotDir.left, .left, .right, .right].count RotDir.left : ℤ))) ∧
    (applyRotations [RotDir.left, .left, .right, .right] 0 = 0 ∧
      rotated_dims 640 480 (applyRotations [RotDir.left, .left, .right, .right] 0) =
        (640, 480)) :=
  ⟨by decide,
    c4_rotation_additive_mod_360.2.2 [RotDir.left, .left, .right, .right] 640 480
      (by decide)⟩

/-- Claim C7: on a non-empty asset list of length `N`, `next` at index `N-1`
wraps to 0, `prev` at index 0 wraps to `N-1`, elsewhere they move by plus or
minus one,
and every successful `next`/`prev`/`goto` resets the rotation state to 0. -/
theorem c7_navigation_wraparound (st : ApiState) (N : ℕ)
    (hlen : st.images.length = N) (hpos : 0 < N) (hidx : st.current_index < N) :
    ((next_image st).2 = true ∧ (prev_image st).2 = true) ∧
    (st.current_index = N - 1 → (next_image st).1.current_index = 0) ∧
    (st.current_index + 1 < N →
      (next_image st).1.current_index = st.current_index + 1) ∧
    (st.current_index = 0 → (prev_image st).1.current_index = N - 1) ∧
    (0 < st.current_index →
      (prev_image st).1.current_index = st.current_index - 1) ∧
    ((next_image st).1.rotation = 0 ∧ (prev_image st).1.rotation = 0) ∧
    (∀ j : ℤ, 1 ≤ j → j ≤ (N : ℤ) →
      (goto_image st j).2 = true ∧ (goto_image st j).1.rotation = 0 ∧
      ((goto_image st j).1.current_index : ℤ) = j - 1) := by
  have hne : st.images ≠ [] := by
    intro h
    rw [h] at hlen
    simp at hlen
    omega
  have hlen' : 0 < st.images.length := by omega
  constructor
  · constructor
    · simp only [next_image, if_neg hne, get_data_ok]
      simp only [decide_eq_true_eq]
      exact ⟨hne, Nat.mod_lt _ hlen'⟩
    · simp only [prev_image, if_neg hne, get_data_ok]
      simp only [decide_eq_true_eq]
      refine ⟨hne, ?_⟩
      have h1 : (0 : ℤ) ≤ ((st.current_index : ℤ) - 1) % (st.images.length : ℤ) :=
        Int.emod_nonneg _ (by omega)
      have h2 : ((st.current_index : ℤ) - 1) % (st.images.length : ℤ) <
          (st.images.length : ℤ) := Int.emod_lt_of_pos _ (by omega)
      omega
  refine ⟨?_, ?_, ?_, ?_, ?_, ?_⟩
  · intro hlast
    simp only [next_image, if_neg hne]
    have hstep : st.current_index + 1 = st.images.length := by omega
    simp [hstep]
  · intro hmid
    simp only [next_image, if_neg hne]
    exact Nat.mod_eq_of_lt (by omega)
  · intro h0
    simp only [prev_image, if_neg hne]
    rw [h0]
    have heq : ((0 : ℤ) - 1) % (st.images.length : ℤ) = (st.images.length : ℤ) - 1 := by
      have hdec : ((0 : ℤ) - 1) =
          ((st.images.length : ℤ) - 1) + (st.images.length : ℤ) * (-1) := by ring
      rw [hdec, Int.add_mul_emod_self_left, Int.emod_eq_of_lt (by omega) (by omega)]
    rw [Nat.cast_zero, heq]
    omega
  · intro hposidx
    simp only [prev_image, if_neg hne]
    have heq : ((st.current_index : ℤ) - 1) % (st.images.length : ℤ) =
        (st.current_index : ℤ) - 1 :=
      Int.emod_eq_of_lt (by omega) (by omega)
    rw [heq]
    omega
  · constructor
    · simp [next_image, if_neg hne]
    · simp [prev_image, if_neg hne]
  · intro j hj1 hjN
    have hnotout : ¬(j - 1 < 0 ∨ (st.images.length : ℤ) ≤ j - 1) := by omega
    simp only [goto_image, if_neg hne, if_neg hnotout, get_data_ok, decide_eq_true_eq]
    exact ⟨⟨hne, by omega⟩, by trivial, by omega⟩

/-- Witness for C7 at a three-asset session positioned on the last asset. -/
theorem c7_navigation_wraparound_witness :
    (["a.jpg", "b.png", "c.pdf"] : List String).length = 3 ∧ 0 < 3 ∧ 2 < 3 ∧
    (next_image ⟨["a.jpg", "b.png", "c.pdf"], 2, "", 90⟩).2 = true ∧
    (prev_image ⟨["a.jpg", "b.png", "c.pdf"], 2, "", 90⟩).2 = true ∧
    (next_image ⟨["a.jpg", "b.png", "c.pdf"], 2, "", 90⟩).1.current_index = 0 := by
  have h := c7_navigation_wraparound ⟨["a.jpg", "b.png", "c.pdf"], 2, "", 90⟩ 3
    rfl (by decide) (by decide)
  exact ⟨rfl, by decide, by decide, h.1.1, h.1.2, h.2.1 (by decide)⟩

/-- Counterexample for C8 as stated: with an empty asset list, `rotate_left`
reports failure yet mutates the rotation field from 0 to 270
(`main.py` line 223 runs before the failure is detected on line 137). -/
theorem c8_counterexample_rotate_empty :
    (rotate_left ⟨[], 0, "", 0⟩).2 = false ∧
    (rotate_left ⟨[], 0, "", 0⟩).1.rotation = 270 ∧
    (rotate_left ⟨[], 0, "", 0⟩).1 ≠ ⟨[], 0, "", 0⟩ := by
  decide

/-- The fixed preview ceiling (`main.py` line 18). -/
def MAX_DISPLAY_SIZE : ℕ := 4200

/-- The downscale ratio computed on `main.py` line 161. -/
def displayRatio (w h : ℕ) : ℚ :=
  min ((MAX_DISPLAY_SIZE : ℚ) / w) ((MAX_DISPLAY_SIZE : ℚ) / h)

/-- Display-buffer dimensions produced by `Api._get_current_image_data`
(`main.py` lines 157-168): identical to the canonical dimensions unless one
of them exceeds the ceiling, in which case both are scaled by
`displayRatio` and truncated by Python `int(...)`. -/
def display_resize (w h : ℕ) : ℕ × ℕ :=
  if MAX_DISPLAY_SIZE < w ∨ MAX_DISPLAY_SIZE < h then
    ((pytrunc ((w : ℚ) * displayRatio w h)).toNat,
     (pytrunc ((h : ℚ) * displayRatio w h)).toNat)
  else (w, h)

lemma pytrunc_of_nonneg {q : ℚ} (h : 0 ≤ q) : pytrunc q = ⌊q⌋ := if_pos h

lemma displayRatio_nonneg (w h : ℕ) : 0 ≤ displayRatio w h := by
  refine le_min ?_ ?_ <;> positivity

lemma displayRatio_le_left (w h : ℕ) : displayRatio w h ≤ (MAX_DISPLAY_SIZE : ℚ) / w :=
  min_le_left _ _

lemma displayRatio_le_right (w h : ℕ) : displayRatio w h ≤ (MAX_DISPLAY_SIZE : ℚ) / h :=
  min_le_right _ _

lemma displayRatio_le_one (w h : ℕ) (hw : 0 < w) (hh : 0 < h)
    (hbig : MAX_DISPLAY_SIZE < w ∨ MAX_DISPLAY_SIZE < h) : displayRatio w h ≤ 1 := by
  rcases hbig with hb | hb
  · refine le_of_lt (lt_of_le_of_lt (displayRatio_le_left w h) ?_)
    rw [div_lt_one (by exact_mod_cast hw)]
    exact_mod_cast hb
  · refine le_of_lt (lt_of_le_of_lt (displayRatio_le_right w h) ?_)
    rw [div_lt_one (by exact_mod_cast hh)]
    exact_mod_cast hb

lemma display_resize_big_fst (w h : ℕ)
    (hbig : MAX_DISPLAY_SIZE < w ∨ MAX_DISPLAY_SIZE < h) :
    (w : ℚ) * displayRatio w h - 1 < ((display_resize w h).1 : ℚ) ∧
    ((display_resize w h).1 : ℚ) ≤ (w : ℚ) * displayRatio w h := by
  have hq : (0 : ℚ) ≤ (w : ℚ) * displayRatio w h :=
    mul_nonneg (by positivity) (displayRatio_nonneg w h)
  have hfl : (0 : ℤ) ≤ ⌊(w : ℚ) * displayRatio w h⌋ := Int.floor_nonneg.mpr hq
  have hres : (display_resize w h).1 = (⌊(w : ℚ) * displayRatio w h⌋).toNat := by
    simp [display_resize, if_pos hbig, pytrunc_of_nonneg hq]
  have hcast : (((display_resize w h).1 : ℕ) : ℚ) = ((⌊(w : ℚ) * displayRatio w h⌋ : ℤ) : ℚ) := by
    rw [hres]
    exact_mod_cast congrArg (fun z : ℤ => (z : ℚ)) (Int.toNat_of_nonneg hfl)
  constructor
  · rw [hcast]
    have := Int.lt_floor_add_one ((w : ℚ) * displayRatio w h)
    linarith
  · rw [hcast]
    exact Int.floor_le _

lemma display_resize_big_snd (w h : ℕ)
    (hbig : MAX_DISPLAY_SIZE < w ∨ MAX_DISPLAY_SIZE < h) :
    (h : ℚ) * displayRatio w h - 1 < ((display_resize w h).2 : ℚ) ∧
    ((display_resize w h).2 : ℚ) ≤ (h : ℚ) * displayRatio w h := by
  have hq : (0 : ℚ) ≤ (h : ℚ) * displayRatio w h :=
    mul_nonneg (by positivity) (displayRatio_nonneg w h)
  have hfl : (0 : ℤ) ≤ ⌊(h : ℚ) * displayRatio w h⌋ := Int.floor_nonneg.mpr hq
  have hres : (display_resize w h).2 = (⌊(h : ℚ) * displayRatio w h⌋).toNat := by
    simp [display_resize, if_pos hbig, pytrunc_of_nonneg hq]
  have hcast : (((display_resize w h).2 : ℕ) : ℚ) = ((⌊(h : ℚ) * displayRatio w h⌋ : ℤ) : ℚ) := by
    rw [hres]
    exact_mod_cast congrArg (fun z : ℤ => (z : ℚ)) (Int.toNat_of_nonneg hfl)
  constructor
  · rw [hcast]
    have := Int.lt_floor_add_one ((h : ℚ) * displayRatio w h)
    linarith
  · rw [hcast]
    exact Int.floor_le _

lemma div_abs_ratio_lt (x q r : ℚ) (hx : 0 < x) (h1 : x * r - 1 < q)
    (h2 : q ≤ x * r) : |q / x - r| < 1 / x := by
  rw [abs_lt]
  constructor
  · have hlt : r - 1 / x < q / x := by
      rw [lt_div_iff₀ hx]
      have hexp : (r - 1 / x) * x = x * r - 1 := by
        field_simp
        ring
      rw [hexp]
      exact h1
    linarith
  · have hle : q / x ≤ r := by
      rw [div_le_iff₀ hx, mul_comm]
      exact h2
    have hpos : (0 : ℚ) < 1 / x := by positivity
    linarith

/-- Claim C5: the display renderer keeps both dimensions at or below the
fixed ceiling 4200; when both canonical dimensions already fit, the display
buffer equals the canonical buffer (no resampling); otherwise both axes are
scaled by the same ratio `min(4200/w, 4200/h) ≤ 1`, the two axis quotients
agree with that ratio within one-pixel rounding, and nothing is upscaled. -/
theorem c5_display_bounded_aspect (w h : ℕ) (hw : 0 < w) (hh : 0 < h) :
    (display_resize w h).1 ≤ MAX_DISPLAY_SIZE ∧
    (display_resize w h).2 ≤ MAX_DISPLAY_SIZE ∧
    (w ≤ MAX_DISPLAY_SIZE ∧ h ≤ MAX_DISPLAY_SIZE → display_resize w h = (w, h)) ∧
    (MAX_DISPLAY_SIZE < w ∨ MAX_DISPLAY_SIZE < h →
      displayRatio w h ≤ 1 ∧
      |((display_resize w h).1 : ℚ) / w - displayRatio w h| < 1 / w ∧
      |((display_resize w h).2 : ℚ) / h - displayRatio w h| < 1 / h ∧
      |((display_resize w h).1 : ℚ) / w - ((display_resize w h).2 : ℚ) / h| <
        1 / w + 1 / h) ∧
    (display_resize w h).1 ≤ w ∧ (display_resize w h).2 ≤ h := by
  have hwq : (0 : ℚ) < (w : ℚ) := by exact_mod_cast hw
  have hhq : (0 : ℚ) < (h : ℚ) := by exact_mod_cast hh
  by_cases hbig : MAX_DISPLAY_SIZE < w ∨ MAX_DISPLAY_SIZE < h
  · have hrle1 := displayRatio_le_one w h hw hh hbig
    have hfst := display_resize_big_fst w h hbig
    have hsnd := display_resize_big_snd w h hbig
    have hwr : (w : ℚ) * displayRatio w h ≤ (MAX_DISPLAY_SIZE : ℚ) := by
      calc (w : ℚ) * displayRatio w h
          ≤ (w : ℚ) * ((MAX_DISPLAY_SIZE : ℚ) / w) :=
            mul_le_mul_of_nonneg_left (displayRatio_le_left w h) (le_of_lt hwq)
        _ = (MAX_DISPLAY_SIZE : ℚ) := by field_simp
    have hhr : (h : ℚ) * displayRatio w h ≤ (MAX_DISPLAY_SIZE : ℚ) := by
      calc (h : ℚ) * displayRatio w h
          ≤ (h : ℚ) * ((MAX_DISPLAY_SIZE : ℚ) / h) :=
            mul_le_mul_of_nonneg_left (displayRatio_le_right w h) (le_of_lt hhq)
        _ = (MAX_DISPLAY_SIZE : ℚ) := by field_simp
    have habs1 := div_abs_ratio_lt (w : ℚ) ((display_resize w h).1 : ℚ)
      (displayRatio w h) hwq hfst.1 hfst.2
    have habs2 := div_abs_ratio_lt (h : ℚ) ((display_resize w h).2 : ℚ)
      (displayRatio w h) hhq hsnd.1 hsnd.2
    refine ⟨?_, ?_, ?_, fun _ => ⟨hrle1, habs1, habs2, ?_⟩, ?_, ?_⟩
    · have : ((display_resize w h).1 : ℚ) ≤ (MAX_DISPLAY_SIZE : ℚ) :=
        le_trans hfst.2 hwr
      exact_mod_cast this
    · have : ((display_resize w h).2 : ℚ) ≤ (MAX_DISPLAY_SIZE : ℚ) :=
        le_trans hsnd.2 hhr
      exact_mod_cast this
    · intro hsmall
      exact absurd hbig (by omega)
    · calc |((display_resize w h).1 : ℚ) / w - ((display_resize w h).2 : ℚ) / h|
          ≤ |((display_resize w h).1 : ℚ) / w - displayRatio w h| +
            |displayRatio w h - ((display_resize w h).2 : ℚ) / h| :=
            abs_sub_le _ _ _
        _ = |((display_resize w h).1 : ℚ) / w - displayRatio w h| +
            |((display_resize w h).2 : ℚ) / h - displayRatio w h| := by
            rw [abs_sub_comm (displayRatio w h)]
        _ < 1 / w + 1 / h := by linarith
    · have hle : ((display_resize w h).1 : ℚ) ≤ (w : ℚ) := by
        calc ((display_resize w h).1 : ℚ) ≤ (w : ℚ) * displayRatio w h := hfst.2
          _ ≤ (w : ℚ) * 1 := mul_le_mul_of_nonneg_left hrle1 (le_of_lt hwq)
          _ = (w : ℚ) := mul_one _
      exact_mod_cast hle
    · have hle : ((display_resize w h).2 : ℚ) ≤ (h : ℚ) := by
        calc ((display_resize w h).2 : ℚ) ≤ (h : ℚ) * displayRatio w h := hsnd.2
          _ ≤ (h : ℚ) * 1 := mul_le_mul_of_nonneg_left hrle1 (le_of_lt hhq)
          _ = (h : ℚ) := mul_one _
      exact_mod_cast hle
  · have hres : display_resize w h = (w, h) := by
      simp [display_resize, hbig]
    push_neg at hbig
    rw [hres]
    exact ⟨hbig.1, hbig.2, fun _ => rfl, fun hb => absurd hb (by omega), le_refl _,
      le_refl _⟩

/-- Witness for C5 at a 8400 by 2100 canonical buffer. -/
theorem c5_display_bounded_aspect_witness :
    0 < 8400 ∧ 0 < 2100 ∧
    (display_resize 8400 2100).1 ≤ MAX_DISPLAY_SIZE ∧
    (display_resize 8400 2100).1 ≤ 8400 := by
  have hth := c5_display_bounded_aspect 8400 2100 (by decide) (by decide)
  exact ⟨by decide, by decide, hth.1, hth.2.2.2.2.1⟩

/-- A selection mapped into original-pixel space (the tuple
`(crop_x, crop_y, crop_x2, crop_y2)` of `main.py` lines 338-341). -/
structure OriginalRect where
  x : ℤ
  y : ℤ
  x2 : ℤ
  y2 : ℤ
deriving DecidableEq

/-- The coordinate mapper inside `Api.crop_and_ocr` (`main.py` lines
324-341): per-axis scale factors from displayed size to actual size,
truncation of the scaled selection values, then clamping of `x`, `y` and of
the clamped-`x`-plus-width / clamped-`y`-plus-height corners to the
canonical bounds. -/
def crop_map (x y w h img_width img_height : ℚ) (actual_width actual_height : ℤ) :
    OriginalRect :=
  let scale_x := (actual_width : ℚ) / img_width
  let scale_y := (actual_height : ℚ) / img_height
  let crop_x := pytrunc (x * scale_x)
  let crop_y := pytrunc (y * scale_y)
  let crop_width := pytrunc (w * scale_x)
  let crop_height := pytrunc (h * scale_y)
  let cx := max 0 (min crop_x actual_width)
  let cy := max 0 (min crop_y actual_height)
  let cx2 := max 0 (min (cx + crop_width) actual_width)
  let cy2 := max 0 (min (cy + crop_height) actual_height)
  ⟨cx, cy, cx2, cy2⟩

lemma floor_div_roundtrip (a s : ℚ) (hs1 : 1 ≤ s) :
    |(⌊a * s⌋ : ℚ) / s - a| ≤ 1 := by
  have hs0 : (0 : ℚ) < s := lt_of_lt_of_le one_pos hs1
  have hup : (⌊a * s⌋ : ℚ) / s ≤ a := by
    rw [div_le_iff₀ hs0]
    exact Int.floor_le _
  have hlow : a - 1 ≤ (⌊a * s⌋ : ℚ) / s := by
    have h1 : a * s - 1 ≤ (⌊a * s⌋ : ℚ) := by
      have := Int.lt_floor_add_one (a * s)
      linarith
    have h2 : (a * s - 1) / s ≤ (⌊a * s⌋ : ℚ) / s := by gcongr
    have h3 : (a * s - 1) / s = a - 1 / s := by
      field_simp
    have h4 : 1 / s ≤ 1 := by
      rw [div_le_one hs0]
      exact hs1
    calc a - 1 ≤ a - 1 / s := by linarith
      _ = (a * s - 1) / s := h3.symm
      _ ≤ (⌊a * s⌋ : ℚ) / s := h2
  rw [abs_le]
  exact ⟨by linarith, by linarith⟩

lemma axis_map_spec (x w D : ℚ) (A : ℤ)
    (hD : 0 < D) (hDA : D ≤ (A : ℚ))
    (hx : 0 ≤ x) (hw : 0 ≤ w) (hxw : x + w ≤ D) :
    0 ≤ pytrunc (x * ((A : ℚ) / D)) ∧
    0 ≤ pytrunc (w * ((A : ℚ) / D)) ∧
    pytrunc (x * ((A : ℚ) / D)) + pytrunc (w * ((A : ℚ) / D)) ≤ A ∧
    |(pytrunc (x * ((A : ℚ) / D)) : ℚ) / ((A : ℚ) / D) - x| ≤ 1 ∧
    |(pytrunc (w * ((A : ℚ) / D)) : ℚ) / ((A : ℚ) / D) - w| ≤ 1 := by
  have hs1 : 1 ≤ (A : ℚ) / D := (one_le_div hD).mpr hDA
  have hs0 : (0 : ℚ) < (A : ℚ) / D := lt_of_lt_of_le one_pos hs1
  have hxs : 0 ≤ x * ((A : ℚ) / D) := mul_nonneg hx (le_of_lt hs0)
  have hws : 0 ≤ w * ((A : ℚ) / D) := mul_nonneg hw (le_of_lt hs0)
  have hpx : pytrunc (x * ((A : ℚ) / D)) = ⌊x * ((A : ℚ) / D)⌋ := pytrunc_of_nonneg hxs
  have hpw : pytrunc (w * ((A : ℚ) / D)) = ⌊w * ((A : ℚ) / D)⌋ := pytrunc_of_nonneg hws
  have hDs : D * ((A : ℚ) / D) = (A : ℚ) := by
    field_simp
  have hsum : x * ((A : ℚ) / D) + w * ((A : ℚ) / D) ≤ (A : ℚ) := by
    have hmul : (x + w) * ((A : ℚ) / D) ≤ D * ((A : ℚ) / D) :=
      mul_le_mul_of_nonneg_right hxw (le_of_lt hs0)
    rw [hDs] at hmul
    calc x * ((A : ℚ) / D) + w * ((A : ℚ) / D) = (x + w) * ((A : ℚ) / D) := by ring
      _ ≤ (A : ℚ) := hmul
  refine ⟨?_, ?_, ?_, ?_, ?_⟩
  · rw [hpx]
    exact Int.floor_nonneg.mpr hxs
  · rw [hpw]
    exact Int.floor_nonneg.mpr hws
  · rw [hpx, hpw]
    have hcast : ((⌊x * ((A : ℚ) / D)⌋ + ⌊w * ((A : ℚ) / D)⌋ : ℤ) : ℚ) ≤ ((A : ℤ) : ℚ) := by
      push_cast
      have h1 := Int.floor_le (x * ((A : ℚ) / D))
      have h2 := Int.floor_le (w * ((A : ℚ) / D))
      linarith
    exact_mod_cast hcast
  · rw [hpx]
    exact floor_div_roundtrip x ((A : ℚ) / D) hs1
  · rw [hpw]
    exact floor_div_roundtrip w ((A : ℚ) / D) hs1

/-- Claim C3: for a selection rectangle lying inside the supplied display
bounds (positive display dimensions, no larger than the canonical ones, as
the renderer guarantees), the mapper produces a rectangle fully inside the
canonical bounds with every clamp a no-op, each output coordinate is the
truncated product with the per-axis scale factor, and dividing the mapped
rectangle back by the scale factors reproduces the input rectangle within
one pixel per edge. -/
theorem c3_selection_mapping (x y w h imgW imgH : ℚ) (aW aH : ℤ)
    (hW : 0 < imgW) (hH : 0 < imgH)
    (hWa : imgW ≤ (aW : ℚ)) (hHa : imgH ≤ (aH : ℚ))
    (hx : 0 ≤ x) (hy : 0 ≤ y) (hw : 0 ≤ w) (hh : 0 ≤ h)
    (hxe : x + w ≤ imgW) (hye : y + h ≤ imgH) :
    (0 ≤ (crop_map x y w h imgW imgH aW aH).x ∧
     (crop_map x y w h imgW imgH aW aH).x ≤ (crop_map x y w h imgW imgH aW aH).x2 ∧
     (crop_map x y w h imgW imgH aW aH).x2 ≤ aW ∧
     0 ≤ (crop_map x y w h imgW imgH aW aH).y ∧
     (crop_map x y w h imgW imgH aW aH).y ≤ (crop_map x y w h imgW imgH aW aH).y2 ∧
     (crop_map x y w h imgW imgH aW aH).y2 ≤ aH) ∧
    ((crop_map x y w h imgW imgH aW aH).x = pytrunc (x * ((aW : ℚ) / imgW)) ∧
     (crop_map x y w h imgW imgH aW aH).y = pytrunc (y * ((aH : ℚ) / imgH)) ∧
     (crop_map x y w h imgW imgH aW aH).x2 =
       (crop_map x y w h imgW imgH aW aH).x + pytrunc (w * ((aW : ℚ) / imgW)) ∧
     (crop_map x y w h imgW imgH aW aH).y2 =
       (crop_map x y w h imgW imgH aW aH).y + pytrunc (h * ((aH : ℚ) / imgH))) ∧
    (|((crop_map x y w h imgW imgH aW aH).x : ℚ) / ((aW : ℚ) / imgW) - x| ≤ 1 ∧
     |((crop_map x y w h imgW imgH aW aH).y : ℚ) / ((aH : ℚ) / imgH) - y| ≤ 1 ∧
     |(((crop_map x y w h imgW imgH aW aH).x2 -
        (crop_map x y w h imgW imgH aW aH).x : ℤ) : ℚ) / ((aW : ℚ) / imgW) - w| ≤ 1 ∧
     |(((crop_map x y w h imgW imgH aW aH).y2 -
        (crop_map x y w h imgW imgH aW aH).y : ℤ) : ℚ) / ((aH : ℚ) / imgH) - h| ≤ 1) := by
  obtain ⟨hx0, hw0, hsumX, hrx, hrw⟩ := axis_map_spec x w imgW aW hW hWa hx hw hxe
  obtain ⟨hy0, hh0, hsumY, hry, hrh⟩ := axis_map_spec y h imgH aH hH hHa hy hh hye
  have hmap : crop_map x y w h imgW imgH aW aH =
      ⟨pytrunc (x * ((aW : ℚ) / imgW)), pytrunc (y * ((aH : ℚ) / imgH)),
       pytrunc (x * ((aW : ℚ) / imgW)) + pytrunc (w * ((aW : ℚ) / imgW)),
       pytrunc (y * ((aH : ℚ) / imgH)) + pytrunc (h * ((aH : ℚ) / imgH))⟩ := by
    simp only [crop_map]
    have e1 : min (pytrunc (x * ((aW : ℚ) / imgW))) aW =
        pytrunc (x * ((aW : ℚ) / imgW)) := min_eq_left (by omega)
    have e2 : max 0 (pytrunc (x * ((aW : ℚ) / imgW))) =
        pytrunc (x * ((aW : ℚ) / imgW)) := max_eq_right hx0
    have e3 : min (pytrunc (y * ((aH : ℚ) / imgH))) aH =
        pytrunc (y * ((aH : ℚ) / imgH)) := min_eq_left (by omega)
    have e4 : max 0 (pytrunc (y * ((aH : ℚ) / imgH))) =
        pytrunc (y * ((aH : ℚ) / imgH)) := max_eq_right hy0
    rw [e1, e2, e3, e4]
    have e5 : min (pytrunc (x * ((aW : ℚ) / imgW)) + pytrunc (w * ((aW : ℚ) / imgW))) aW =
        pytrunc (x * ((aW : ℚ) / imgW)) + pytrunc (w * ((aW : ℚ) / imgW)) :=
      min_eq_left hsumX
    have e6 : max 0 (pytrunc (x * ((aW : ℚ) / imgW)) + pytrunc (w * ((aW : ℚ) / imgW))) =
        pytrunc (x * ((aW : ℚ) / imgW)) + pytrunc (w * ((aW : ℚ) / imgW)) :=
      max_eq_right (by omega)
    have e7 : min (pytrunc (y * ((aH : ℚ) / imgH)) + pytrunc (h * ((aH : ℚ) / imgH))) aH =
        pytrunc (y * ((aH : ℚ) / imgH)) + pytrunc (h * ((aH : ℚ) / imgH)) :=
      min_eq_left hsumY
    have e8 : max 0 (pytrunc (y * ((aH : ℚ) / imgH)) + pytrunc (h * ((aH : ℚ) / imgH))) =
        pytrunc (y * ((aH : ℚ) / imgH)) + pytrunc (h * ((aH : ℚ) / imgH)) :=
      max_eq_right (by omega)
    rw [e5, e6, e7, e8]
  rw [hmap]
  dsimp only
  refine ⟨⟨hx0, by omega, hsumX, hy0, by omega, hsumY⟩,
    ⟨rfl, rfl, rfl, rfl⟩, hrx, hry, ?_, ?_⟩
  · have hcancel : pytrunc (x * ((aW : ℚ) / imgW)) + pytrunc (w * ((aW : ℚ) / imgW)) -
        pytrunc (x * ((aW : ℚ) / imgW)) = pytrunc (w * ((aW : ℚ) / imgW)) := by ring
    rw [hcancel]
    exact hrw
  · have hcancel : pytrunc (y * ((aH : ℚ) / imgH)) + pytrunc (h * ((aH : ℚ) / imgH)) -
        pytrunc (y * ((aH : ℚ) / imgH)) = pytrunc (h * ((aH : ℚ) / imgH)) := by ring
    rw [hcancel]
    exact hrh

/-- Witness for C3 at a 30 by 40 selection at (10, 20) on a 100 by 100
display buffer over a 200 by 300 canonical buffer. -/
theorem c3_selection_mapping_witness :
    ((0 : ℚ) < 100 ∧ (0 : ℚ) < 100 ∧ (100 : ℚ) ≤ ((200 : ℤ) : ℚ) ∧
     (100 : ℚ) ≤ ((300 : ℤ) : ℚ) ∧ (0 : ℚ) ≤ 10 ∧ (0 : ℚ) ≤ 20 ∧
     (0 : ℚ) ≤ 30 ∧ (0 : ℚ) ≤ 40 ∧ (10 : ℚ) + 30 ≤ 100 ∧ (20 : ℚ) + 40 ≤ 100) ∧
    (0 ≤ (crop_map 10 20 30 40 100 100 200 300).x ∧
     (crop_map 10 20 30 40 100 100 200 300).x2 ≤ 200 ∧
     |((crop_map 10 20 30 40 100 100 200 300).x : ℚ) / ((200 : ℚ) / 100) - 10| ≤ 1) := by
  have hth := c3_selection_mapping 10 20 30 40 100 100 200 300
    (by norm_num) (by norm_num) (by norm_num) (by norm_num) (by norm_num)
    (by norm_num) (by norm_num) (by norm_num) (by norm_num) (by norm_num)
  refine ⟨by norm_num, hth.1.1, hth.1.2.2.1, ?_⟩
  have habs := hth.2.2.1
  have hcast : (((200 : ℤ) : ℚ)) = (200 : ℚ) := by norm_num
  rw [hcast] at habs
  exact habs

/-- Extension part of `os.path.splitext` (CPython `genericpath._splitext`
with separator `/` and alternate separator `\`): the extension starts at the
last dot, provided that dot sits after at least one non-dot character of the
final path component; otherwise it is empty. -/
def splitextExtChars (cs : List Char) : List Char :=
  let sepIdx := max (rfindIdx cs '/') (rfindIdx cs '\\')
  let dotIdx := rfindIdx cs '.'
  if sepIdx < dotIdx then
    if (List.range cs.length).any
        (fun i => decide (sepIdx < (i : ℤ)) && decide ((i : ℤ) < dotIdx) &&
          decide (cs.getD i ' ' ≠ '.'))
    then cs.drop dotIdx.toNat
    else []
  else []

/-- `os.path.splitext(p)[1]` as used throughout `main.py`. -/
def splitextExt (p : String) : String := ⟨splitextExtChars p.data⟩

/-- `Api._is_pdf` (`main.py` lines 110-112). -/
def is_pdf (p : String) : Bool := decide (lowerStr (splitextExt p) = ".pdf")

/-- The destination extension of `Api.rename_and_save` (`main.py` lines
391-394): the lower-cased source extension, or `.jpg` when the source has
none. -/
def original_ext (p : String) : String :=
  let e := lowerStr (splitextExt p)
  if e = "" then ".jpg" else e

/-- The destination base name (`main.py` lines 396-402); Python truthiness
of a string is non-emptiness. -/
def base_name (image_name image_number : String) : String :=
  if image_name ≠ "" ∧ image_number ≠ "" then image_name ++ "-" ++ image_number
  else if image_name ≠ "" then image_name
  else image_number

/-- The reserved filename characters checked on `main.py` line 374, in
source order. -/
def invalid_chars : List Char := ['\\', '/', ':', '*', '?', '"', '<', '>', '|']

/-- The offending characters collected by the loop on `main.py` lines
375-378: the reserved characters, in reserved-set order, that occur in the
proposed name or number. -/
def invalid_found (image_name image_number : String) : List Char :=
  invalid_chars.filter
    (fun c => containsChar image_name c || containsChar image_number c)

/-- The `needs_processing` flag of `main.py` lines 418-431: true when a user
rotation is pending, otherwise true when the source EXIF data yields an
orientation tag (key 274) other than upright (1). A missing or unreadable
EXIF block is `none`. -/
def needs_processing (rotation : ℤ) (orientTag : Option ℕ) : Bool :=
  if rotation ≠ 0 then true
  else
    match orientTag with
    | some o => decide (o ≠ 1)
    | none => false

/-- How a commit writes the destination file: a byte-for-byte copy
(`shutil.copy2`) or a re-encode with the recorded transform and encoder
settings (`img.save(..., quality, subsampling)`). -/
inductive WriteAction where
  | copyBytes
  | reencode (exif_transposed : Bool) (rotation : ℤ) (quality : ℕ) (subsampling : ℕ)
deriving DecidableEq

/-- The copy-versus-re-encode decision of `main.py` lines 413-448: PDFs are
always copied; rasters are copied unless `needs_processing`, in which case
they are EXIF-normalized, rotated by the pending rotation and re-encoded at
quality 100 with subsampling 0. -/
def write_strategy (pdf : Bool) (rotation : ℤ) (orientTag : Option ℕ) : WriteAction :=
  if pdf then .copyBytes
  else if needs_processing rotation orientTag then .reencode true rotation 100 0
  else .copyBytes

/-- Modelled from the spec: the claim's predicate
`needsReencode = (rotation != 0) OR (EXIF orientation present and not
upright)`, written from the spec's words for comparison with the code's
`needs_processing`. -/
def needsReencodeSpec (rotation : ℤ) (orientTag : Option ℕ) : Bool :=
  decide (rotation ≠ 0) ||
    (match orientTag with
     | some o => decide (o ≠ 1)
     | none => false)

/-- The `k`-th candidate destination filename (`main.py` lines 405-410):
`{base}{ext}` for `k = 0`, and `{base}({k}){ext}` for `k ≥ 1`. Paths are
taken relative to the destination folder, so `os.path.join(save_path, f)`
is modelled as `f`. -/
def destCandidate (base ext : String) (k : ℕ) : String :=
  if k = 0 then base ++ ext else base ++ "(" ++ toString k ++ ")" ++ ext

/-- The collision-avoidance loop of `main.py` lines 404-411: starting from
`{base}{ext}` and probing `{base}(1){ext}`, `{base}(2){ext}`, ..., the loop
returns the first candidate that does not exist; `Nat.find` captures the
index the loop stops at, given that some candidate is free. -/
def resolvePath (fs : String → Bool) (base ext : String)
    (h : ∃ k, fs (destCandidate base ext k) = false) : String :=
  destCandidate base ext (Nat.find h)

/-- The failure outcomes of `Api.rename_and_save` (`main.py` lines 364-385),
in guard order. -/
inductive SaveError where
  | noImages
  | noSavePath
  | emptyNames
  | invalidName (found : List Char)
deriving DecidableEq

/-- `Api.rename_and_save` (`main.py` lines 356-477): validation guards in
source order, then destination-name synthesis, collision resolution, the
copy-versus-re-encode decision, rotation reset, and circular advance of the
active index (kept in place when only one asset is loaded). On `.error`
nothing is written; on `.ok` the returned string is the path written. -/
def rename_and_save (st : ApiState) (fs : String → Bool) (orientTag : Option ℕ)
    (image_name image_number : String)
    (hfs : ∃ k, fs (destCandidate (base_name image_name image_number)
      (original_ext (st.images.getD st.current_index "")) k) = false) :
    Except SaveError (String × WriteAction × ApiState) :=
  if st.images = [] ∨ st.images.length ≤ st.current_index then .error .noImages
  else if st.save_path = "" then .error .noSavePath
  else if image_name = "" ∧ image_number = "" then .error .emptyNames
  else if invalid_found image_name image_number ≠ [] then
    .error (.invalidName (invalid_found image_name image_number))
  else
    let image_path := st.images.getD st.current_index ""
    let save_file_path := resolvePath fs (base_name image_name image_number)
      (original_ext image_path) hfs
    let action := write_strategy (is_pdf image_path) st.rotation orientTag
    let st' : ApiState :=
      if st.images.length = 1 then { st with rotation := 0 }
      else
        { st with
          rotation := 0
          current_index := (st.current_index + 1) % st.images.length }
    .ok (save_file_path, action, st')

/-- Claim C1: the write strategy is decided by the pure predicate
`needsReencode = (rotation != 0) OR (EXIF orientation present and not
upright)` — a PDF is always copied byte-for-byte; a raster is copied exactly
when the predicate is false, and otherwise re-encoded (EXIF-normalized,
rotated by the pending rotation) at quality 100 with no chroma
subsampling. -/
theorem c1_write_strategy_decision (r : ℤ) (t : Option ℕ) :
    write_strategy true r t = .copyBytes ∧
    needs_processing r t = needsReencodeSpec r t ∧
    (write_strategy false r t = .copyBytes ↔ needsReencodeSpec r t = false) ∧
    (needsReencodeSpec r t = true →
      write_strategy false r t = .reencode true r 100 0) := by
  refine ⟨rfl, ?_, ?_, ?_⟩
  · by_cases hr : r = 0 <;> cases t <;>
      simp [needs_processing, needsReencodeSpec, hr]
  · by_cases hr : r = 0 <;> cases t <;>
      simp [write_strategy, needs_processing, needsReencodeSpec, hr]
  · intro hspec
    have hcode : needs_processing r t = true := by
      by_cases hr : r = 0 <;> cases t <;>
        simp_all [needs_processing, needsReencodeSpec, hr]
    simp [write_strategy, hcode]

/-- Witness for C1 at a pending 90 degree rotation on a raster asset. -/
theorem c1_write_strategy_decision_witness :
    needsReencodeSpec 90 none = true ∧
    write_strategy false 90 none = .reencode true 90 100 0 :=
  ⟨by decide, (c1_write_strategy_decision 90 none).2.2.2 (by decide)⟩

lemma resolvePath_eq (fs : String → Bool) (base ext : String)
    (h : ∃ k, fs (destCandidate base ext k) = false) (k : ℕ)
    (hk : fs (destCandidate base ext k) = false)
    (hmin : ∀ j < k, fs (destCandidate base ext j) = true) :
    resolvePath fs base ext h = destCandidate base ext k := by
  unfold resolvePath
  congr 1
  rw [Nat.find_eq_iff]
  refine ⟨hk, fun n hn => ?_⟩
  rw [hmin n hn]
  simp

lemma rename_and_save_ok (st : ApiState) (fs : String → Bool) (orientTag : Option ℕ)
    (image_name image_number : String)
    (hfs : ∃ k, fs (destCandidate (base_name image_name image_number)
      (original_ext (st.images.getD st.current_index "")) k) = false)
    (h1 : ¬(st.images = [] ∨ st.images.length ≤ st.current_index))
    (h2 : ¬st.save_path = "")
    (h3 : ¬(image_name = "" ∧ image_number = ""))
    (h4 : ¬invalid_found image_name image_number ≠ []) :
    rename_and_save st fs orientTag image_name image_number hfs =
      .ok (resolvePath fs (base_name image_name image_number)
            (original_ext (st.images.getD st.current_index "")) hfs,
          write_strategy (is_pdf (st.images.getD st.current_index ""))
            st.rotation orientTag,
          if st.images.length = 1 then { st with rotation := 0 }
          else
            { st with
              rotation := 0
              current_index := (st.current_index + 1) % st.images.length }) := by
  simp only [rename_and_save, if_neg h1, if_neg h2, if_neg h3, if_neg h4]

lemma rename_and_save_ok_inv (st : ApiState) (fs : String → Bool)
    (orientTag : Option ℕ) (image_name image_number : String)
    (hfs : ∃ k, fs (destCandidate (base_name image_name image_number)
      (original_ext (st.images.getD st.current_index "")) k) = false)
    (out : String × WriteAction × ApiState)
    (hout : rename_and_save st fs orientTag image_name image_number hfs = .ok out) :
    out.1 = resolvePath fs (base_name image_name image_number)
      (original_ext (st.images.getD st.current_index "")) hfs ∧
    out.2.1 = write_strategy (is_pdf (st.images.getD st.current_index ""))
      st.rotation orientTag ∧
    ¬(image_name = "" ∧ image_number = "") ∧
    invalid_found image_name image_number = [] := by
  by_cases h1 : st.images = [] ∨ st.images.length ≤ st.current_index
  · rw [rename_and_save, if_pos h1] at hout
    exact absurd hout (by simp)
  by_cases h2 : st.save_path = ""
  · rw [rename_and_save, if_neg h1, if_pos h2] at hout
    exact absurd hout (by simp)
  by_cases h3 : image_name = "" ∧ image_number = ""
  · rw [rename_and_save, if_neg h1, if_neg h2, if_pos h3] at hout
    exact absurd hout (by simp)
  by_cases h4 : invalid_found image_name image_number ≠ []
  · rw [rename_and_save, if_neg h1, if_neg h2, if_neg h3, if_pos h4] at hout
    exact absurd hout (by simp)
  · rw [rename_and_save_ok st fs orientTag image_name image_number hfs h1 h2 h3 h4]
      at hout
    injection hout with hx
    rw [← hx]
    exact ⟨rfl, rfl, h3, not_not.mp h4⟩

/-- Destination-folder content for the first collision example: `A-1.jpg`
already exists. -/
def fsA1 : String → Bool := fun s => decide (s ∈ (["A-1.jpg"] : List String))

/-- Destination-folder content after the second commit: `A-1.jpg` and
`A-1(1).jpg` exist. -/
def fsA2 : String → Bool :=
  fun s => decide (s ∈ (["A-1.jpg", "A-1(1).jpg"] : List String))

lemma fsA1_has_free : ∃ k, fsA1 (destCandidate "A-1" ".jpg" k) = false :=
  ⟨1, by decide⟩

lemma fsA2_has_free : ∃ k, fsA2 (destCandidate "A-1" ".jpg" k) = false :=
  ⟨2, by decide⟩

lemma fs_empty_has_free (base ext : String) :
    ∃ k, (fun _ : String => false) (destCandidate base ext k) = false := ⟨0, rfl⟩

/-- Claim C2: the committed destination is `{base}{ext}` when free, and
otherwise `{base}(k){ext}` for the smallest `k ≥ 1` whose candidate is free
(probing in order), so an existing file is never overwritten; a successful
commit returns exactly the resolved path; and over an existing `A-1.jpg`,
committing name `A`, number `1` yields `A-1(1).jpg`, then `A-1(2).jpg`. -/
theorem c2_collision_free_destination :
    (∀ (fs : String → Bool) (base ext : String)
        (h : ∃ k, fs (destCandidate base ext k) = false),
      (fs (destCandidate base ext 0) = false →
        resolvePath fs base ext h = destCandidate base ext 0) ∧
      (fs (destCandidate base ext 0) = true →
        ∃ k, 1 ≤ k ∧ resolvePath fs base ext h = destCandidate base ext k ∧
          fs (destCandidate base ext k) = false ∧
          ∀ j, 1 ≤ j → j < k → fs (destCandidate base ext j) = true) ∧
      fs (resolvePath fs base ext h) = false) ∧
    (∀ (st : ApiState) (fs : String → Bool) (t : Option ℕ)
        (nm num : String)
        (hfs : ∃ k, fs (destCandidate (base_name nm num)
          (original_ext (st.images.getD st.current_index "")) k) = false)
        (out : String × WriteAction × ApiState),
      rename_and_save st fs t nm num hfs = .ok out →
        out.1 = resolvePath fs (base_name nm num)
          (original_ext (st.images.getD st.current_index "")) hfs) ∧
    base_name "A" "1" = "A-1" ∧
    destCandidate "A-1" ".jpg" 0 = "A-1.jpg" ∧
    resolvePath fsA1 "A-1" ".jpg" fsA1_has_free = "A-1(1).jpg" ∧
    resolvePath fsA2 "A-1" ".jpg" fsA2_has_free = "A-1(2).jpg" := by
  refine ⟨?_, ?_, by decide, by decide, ?_, ?_⟩
  · intro fs base ext h
    refine ⟨?_, ?_, Nat.find_spec h⟩
    · intro h0
      exact resolvePath_eq fs base ext h 0 h0 (fun j hj => absurd hj (by omega))
    · intro h0
      refine ⟨Nat.find h, ?_, rfl, Nat.find_spec h, ?_⟩
      · by_contra hlt
        have hz : Nat.find h = 0 := by omega
        have := Nat.find_spec h
        rw [hz, h0] at this
        exact Bool.noConfusion this
      · intro j _ hj
        have := Nat.find_min h hj
        simpa using this
  · intro st fs t nm num hfs out hout
    exact (rename_and_save_ok_inv st fs t nm num hfs out hout).1
  · refine resolvePath_eq fsA1 "A-1" ".jpg" fsA1_has_free 1 (by decide) ?_
    intro j hj
    have hj0 : j = 0 := by omega
    rw [hj0]
    decide
  · refine resolvePath_eq fsA2 "A-1" ".jpg" fsA2_has_free 2 (by decide) ?_
    intro j hj
    have hj01 : j = 0 ∨ j = 1 := by omega
    rcases hj01 with hj0 | hj1
    · rw [hj0]
      decide
    · rw [hj1]
      decide

/-- Witness for C2: the first collision example evaluated end to end. -/
theorem c2_collision_free_destination_witness :
    (∃ k, fsA1 (destCandidate "A-1" ".jpg" k) = false) ∧
    fsA1 (destCandidate "A-1" ".jpg" 0) = true ∧
    fsA1 (resolvePath fsA1 "A-1" ".jpg" fsA1_has_free) = false ∧
    (∃ k, 1 ≤ k ∧
      resolvePath fsA1 "A-1" ".jpg" fsA1_has_free = destCandidate "A-1" ".jpg" k ∧
      fsA1 (destCandidate "A-1" ".jpg" k) = false ∧
      ∀ j, 1 ≤ j → j < k → fsA1 (destCandidate "A-1" ".jpg" j) = true) :=
  ⟨fsA1_has_free, by decide,
    (c2_collision_free_destination.1 fsA1 "A-1" ".jpg" fsA1_has_free).2.2,
    (c2_collision_free_destination.1 fsA1 "A-1" ".jpg" fsA1_has_free).2.1 (by decide)⟩

/-- Claim C6: with a loaded asset and a destination set, a commit fails (and
writes nothing) with the empty-names error when both strings are empty, and
with the invalid-characters error when either string contains a reserved
character, the error listing exactly the reserved characters found; the
concrete case name `bad:name`, number empty fails listing `:`. -/
theorem c6_commit_validation (st : ApiState) (fs : String → Bool) (t : Option ℕ)
    (image_name image_number : String)
    (hfs : ∃ k, fs (destCandidate (base_name image_name image_number)
      (original_ext (st.images.getD st.current_index "")) k) = false)
    (hst : ¬(st.images = [] ∨ st.images.length ≤ st.current_index))
    (hsp : ¬st.save_path = "") :
    (image_name = "" ∧ image_number = "" →
      rename_and_save st fs t image_name image_number hfs =
        .error SaveError.emptyNames) ∧
    (invalid_found image_name image_number ≠ [] →
      ¬(image_name = "" ∧ image_number = "") →
      rename_and_save st fs t image_name image_number hfs =
        .error (.invalidName (invalid_found image_name image_number))) ∧
    (∀ c, c ∈ invalid_found image_name image_number ↔
      c ∈ invalid_chars ∧
        (containsChar image_name c = true ∨ containsChar image_number c = true)) ∧
    (∀ out, rename_and_save st fs t image_name image_number hfs = .ok out →
      invalid_found image_name image_number = [] ∧
        ¬(image_name = "" ∧ image_number = "")) ∧
    invalid_found "bad:name" "" = [':'] ∧
    rename_and_save ⟨["x.jpg"], 0, "out", 0⟩ (fun _ => false) none "bad:name" ""
      (fs_empty_has_free (base_name "bad:name" "")
        (original_ext ((["x.jpg"] : List String).getD 0 ""))) =
      .error (.invalidName [':']) := by
  refine ⟨?_, ?_, ?_, ?_, by decide, rfl⟩
  · intro h3
    simp only [rename_and_save, if_neg hst, if_neg hsp, if_pos h3]
  · intro h4 h3
    simp only [rename_and_save, if_neg hst, if_neg hsp, if_neg h3, if_pos h4]
  · intro c
    simp [invalid_found, List.mem_filter, Bool.or_eq_true]
  · intro out hout
    have hinv := rename_and_save_ok_inv st fs t image_name image_number hfs out hout
    exact ⟨hinv.2.2.2, hinv.2.2.1⟩

/-- Witness for C6 at the concrete invalid-character commit. -/
theorem c6_commit_validation_witness :
    (∃ k, (fun _ : String => false) (destCandidate (base_name "bad:name" "")
      (original_ext ((["x.jpg"] : List String).getD 0 "")) k) = false) ∧
    ¬((["x.jpg"] : List String) = [] ∨ (["x.jpg"] : List String).length ≤ 0) ∧
    ¬("out" : String) = "" ∧
    invalid_found "bad:name" "" ≠ [] ∧ ¬("bad:name" = "" ∧ ("" : String) = "") ∧
    rename_and_save ⟨["x.jpg"], 0, "out", 0⟩ (fun _ => false) none "bad:name" ""
      (fs_empty_has_free (base_name "bad:name" "")
        (original_ext ((["x.jpg"] : List String).getD 0 ""))) =
      .error (.invalidName (invalid_found "bad:name" "")) := by
  refine ⟨⟨0, rfl⟩, by decide, by decide, by decide, by decide, ?_⟩
  exact (c6_commit_validation ⟨["x.jpg"], 0, "out", 0⟩ (fun _ => false) none
    "bad:name" ""
    (fs_empty_has_free (base_name "bad:name" "")
      (original_ext ((["x.jpg"] : List String).getD 0 "")))
    (by decide) (by decide)).2.1 (by decide) (by decide)

lemma lowerStr_empty_iff (s : String) : lowerStr s = "" ↔ s = "" := by
  cases s with
  | mk data =>
      unfold lowerStr
      constructor
      · intro hmk
        have hdata : data.map Char.toLower = [] := congrArg String.data hmk
        have hnil : data = [] := List.map_eq_nil_iff.mp hdata
        rw [hnil]
      · intro hmk
        have hnil : data = [] := congrArg String.data hmk
        rw [hnil]
        rfl

lemma resolvePath_fs_empty (base ext : String)
    (h : ∃ k, (fun _ : String => false) (destCandidate base ext k) = false) :
    resolvePath (fun _ => false) base ext h = destCandidate base ext 0 :=
  resolvePath_eq _ base ext h 0 rfl (fun j hj => absurd hj (by omega))

/-- Counterexample for C9 as stated: committing the asset `scan.PNG` writes
`A-1.png` — the destination extension `.png` is not the source's original
extension `.PNG`, because `main.py` line 392 lower-cases it. -/
theorem c9_counterexample_case_folded_extension :
    splitextExt "scan.PNG" = ".PNG" ∧
    original_ext "scan.PNG" = ".png" ∧
    rename_and_save ⟨["scan.PNG"], 0, "out", 0⟩ (fun _ => false) none "A" "1"
      (fs_empty_has_free (base_name "A" "1")
        (original_ext ((["scan.PNG"] : List String).getD 0 ""))) =
      .ok ("A-1.png", WriteAction.copyBytes, ⟨["scan.PNG"], 0, "out", 0⟩) ∧
    original_ext "scan.PNG" ≠ splitextExt "scan.PNG" := by
  refine ⟨by decide, by decide, ?_, by decide⟩
  rw [rename_and_save_ok ⟨["scan.PNG"], 0, "out", 0⟩ (fun _ => false) none "A" "1"
    (fs_empty_has_free (base_name "A" "1")
      (original_ext ((["scan.PNG"] : List String).getD 0 "")))
    (by decide) (by decide) (by decide) (by decide)]
  rw [resolvePath_fs_empty]
  rfl

/-- Claim C9 (amended): the destination extension is the lower-cased source
extension, defaulting to `.jpg` exactly when the source has none; the
destination extension is `.jpg` precisely when the source has no extension
or its extension lower-cases to `.jpg`. -/
theorem c9_extension_policy_lowercased (p : String) :
    (splitextExt p = "" → original_ext p = ".jpg") ∧
    (splitextExt p ≠ "" → original_ext p = lowerStr (splitextExt p)) ∧
    (original_ext p = ".jpg" ↔
      splitextExt p = "" ∨ lowerStr (splitextExt p) = ".jpg") := by
  by_cases he : splitextExt p = ""
  · have hlow : lowerStr (splitextExt p) = "" := (lowerStr_empty_iff _).mpr he
    refine ⟨fun _ => ?_, fun hne => absurd he hne, ?_⟩
    · simp [original_ext, hlow]
    · simp [original_ext, hlow, he, show lowerStr "" = "" from rfl]
  · have hlow : lowerStr (splitextExt p) ≠ "" :=
      fun hc => he ((lowerStr_empty_iff _).mp hc)
    refine ⟨fun hc => absurd hc he, fun _ => ?_, ?_⟩
    · simp [original_ext, hlow]
    · simp [original_ext, hlow, he]

/-- Witness for C9 (amended) at an extension-less source and at `scan.PNG`. -/
theorem c9_extension_policy_lowercased_witness :
    (splitextExt "scan" = "" ∧ original_ext "scan" = ".jpg") ∧
    (splitextExt "scan.PNG" ≠ "" ∧
      original_ext "scan.PNG" = lowerStr (splitextExt "scan.PNG")) :=
  ⟨⟨by decide, (c9_extension_policy_lowercased "scan").1 (by decide)⟩,
    ⟨by decide, (c9_extension_policy_lowercased "scan.PNG").2.1 (by decide)⟩⟩

/-- The supported-extension set of `Api.open_folder` (`main.py` line 94). -/
def supported_extensions : List String :=
  [".jpg", ".jpeg", ".png", ".bmp", ".gif", ".webp", ".pdf"]

/-- Final path component (`pathlib.PurePath.name`, splitting on `/` and
`\`). -/
def path_name (p : String) : String :=
  ⟨p.data.drop ((max (rfindIdx p.data '/') (rfindIdx p.data '\\')) + 1).toNat⟩

/-- `pathlib.PurePath.suffix`: the final component's extension from its last
dot, empty when the dot is leading, trailing, or absent. -/
def path_suffix (p : String) : String :=
  let nm := path_name p
  let i := rfindIdx nm.data '.'
  if 0 < i ∧ i < (nm.data.length : ℤ) - 1 then ⟨nm.data.drop i.toNat⟩ else ""

/-- The asset sequence built by `Api.open_folder` (`main.py` lines 94-98):
the folder's entries in sorted order, keeping exactly those whose suffix
lower-cases into the supported set. -/
def open_folder_images (entries : List String) : List String :=
  (entries.mergeSort (fun a b => decide (a ≤ b))).filter
    (fun f => decide (lowerStr (path_suffix f) ∈ supported_extensions))

/-- The file-type patterns of the `Api.open_file` dialog
(`main.py` line 68). -/
def open_file_dialog_patterns : List String :=
  ["*.jpg", "*.jpeg", "*.png", "*.bmp", "*.gif", "*.webp", "*.pdf",
   "*.tiff", "*.tif"]

/-- Claim C10: `open_folder` keeps exactly the entries whose extension
lower-cases into the seven supported extensions, in sorted order; `.tif` and
`.tiff` files are excluded from a folder open even though the single-file
dialog accepts `*.tiff` and `*.tif`, so the two entry points support
different extension sets. -/
theorem c10_folder_filter_excludes_tif :
    (∀ (entries : List String) (p : String),
      p ∈ open_folder_images entries ↔
        p ∈ entries ∧ lowerStr (path_suffix p) ∈ supported_extensions) ∧
    (∀ entries : List String, (open_folder_images entries).Sorted (· ≤ ·)) ∧
    lowerStr (path_suffix "a.TIF") = ".tif" ∧
    (".tif" : String) ∉ supported_extensions ∧
    (".tiff" : String) ∉ supported_extensions ∧
    "*.tif" ∈ open_file_dialog_patterns ∧
    "*.tiff" ∈ open_file_dialog_patterns ∧
    open_folder_images ["a.tif"] = [] ∧
    open_folder_images ["b.jpg"] = ["b.jpg"] := by
  refine ⟨?_, ?_, by decide, by decide, by decide, by decide, by decide, ?_, ?_⟩
  · intro entries p
    unfold open_folder_images
    rw [List.mem_filter, List.mem_mergeSort, decide_eq_true_eq]
  · intro entries
    unfold open_folder_images
    have htrans : ∀ a b c : String,
        decide (a ≤ b) = true → decide (b ≤ c) = true → decide (a ≤ c) = true := by
      intro a b c h1 h2
      rw [decide_eq_true_eq] at h1 h2 ⊢
      exact le_trans h1 h2
    have htot : ∀ a b : String, (decide (a ≤ b) || decide (b ≤ a)) = true := by
      intro a b
      simp only [Bool.or_eq_true, decide_eq_true_eq]
      exact le_total a b
    have hsorted := List.sorted_mergeSort htrans htot entries
    have hpair := List.Pairwise.filter
      (fun f => decide (lowerStr (path_suffix f) ∈ supported_extensions)) hsorted
    exact hpair.imp (fun hab => of_decide_eq_true hab)
  · unfold open_folder_images
    rw [List.mergeSort_of_sorted (by simp)]
    decide
  · unfold open_folder_images
    rw [List.mergeSort_of_sorted (by simp)]
    decide

/-- Witness for C10: membership characterization evaluated on a two-entry
folder. -/
theorem c10_folder_filter_excludes_tif_witness :
    ("x.tif" ∈ open_folder_images ["x.tif", "y.jpg"] ↔
      "x.tif" ∈ (["x.tif", "y.jpg"] : List String) ∧
        lowerStr (path_suffix "x.tif") ∈ supported_extensions) ∧
    ¬lowerStr (path_suffix "x.tif") ∈ supported_extensions :=
  ⟨c10_folder_filter_excludes_tif.1 ["x.tif", "y.jpg"] "x.tif", by decide⟩

/-- `Api.crop_and_ocr` at session level (`main.py` lines 299-354): the
method reads the session fields and assigns none of them, so every exit
path — the guard on line 309, a decode/processing exception, or a completed
OCR — returns with the session state exactly as it was. The decode/OCR
outcome of the non-guard paths is environmental, supplied as
`decode_ocr_ok`; the selection arguments feed only `crop_map` and the OCR
call. -/
def crop_and_ocr (st : ApiState) (x y w h img_width img_height : ℚ)
    (decode_ocr_ok : Bool) : ApiState × Bool :=
  if st.images = [] ∨ st.images.length ≤ st.current_index then (st, false)
  else (st, decode_ocr_ok)

/-- The session-state transition of `Api.rename_and_save`: the method
assigns `self.rotation` (line 451) and `self.current_index` (line 466) only
after the destination file has been written; every failure return — the
guards of lines 364-385 and the exception handler of lines 476-477, which
catches any write error raised before line 451 — leaves the fields
untouched. `write_ok` models the environmental outcome of the
copy/encode. -/
def rename_and_save_step (st : ApiState) (fs : String → Bool)
    (orientTag : Option ℕ) (image_name image_number : String)
    (hfs : ∃ k, fs (destCandidate (base_name image_name image_number)
      (original_ext (st.images.getD st.current_index "")) k) = false)
    (write_ok : Bool) : ApiState × Bool :=
  match rename_and_save st fs orientTag image_name image_number hfs with
  | .error _ => (st, false)
  | .ok out => if write_ok then (out.2.2, true) else (st, false)

/-- Claim C8 (amended): every pipeline operation returns a structured
outcome; on any reported failure of navigation (`next`/`prev` with an empty
list, `goto` out of range), of crop/OCR (which never assigns a session
field), or of export (whose guards and write-exception path all return
before the post-write mutations) the session state is unchanged;
`rotate_left`/`rotate_right`, however, update the rotation field to
`(r ∓ 90) % 360` even when they then report failure for an empty asset
list, leaving only the index and asset list unchanged. -/
theorem c8_failure_leaves_state (st : ApiState) :
    (st.images = [] →
      next_image st = (st, false) ∧ prev_image st = (st, false)) ∧
    (∀ j : ℤ, j < 1 ∨ (st.images.length : ℤ) < j → goto_image st j = (st, false)) ∧
    (st.images = [] →
      (rotate_left st).2 = false ∧ (rotate_right st).2 = false ∧
      (rotate_left st).1.current_index = st.current_index ∧
      (rotate_right st).1.current_index = st.current_index ∧
      (rotate_left st).1.images = st.images ∧
      (rotate_right st).1.images = st.images ∧
      (rotate_left st).1.rotation = (st.rotation - 90) % 360 ∧
      (rotate_right st).1.rotation = (st.rotation + 90) % 360) ∧
    (∀ (x y w h img_width img_height : ℚ) (ok : Bool),
      (crop_and_ocr st x y w h img_width img_height ok).1 = st) ∧
    (∀ (fs : String → Bool) (t : Option ℕ) (image_name image_number : String)
        (hfs : ∃ k, fs (destCandidate (base_name image_name image_number)
          (original_ext (st.images.getD st.current_index "")) k) = false)
        (write_ok : Bool),
      (rename_and_save_step st fs t image_name image_number hfs write_ok).2 = false →
        (rename_and_save_step st fs t image_name image_number hfs write_ok).1 = st) := by
  refine ⟨?_, ?_, ?_, ?_, ?_⟩
  · intro hemp
    constructor <;> simp [next_image, prev_image, hemp]
  · intro j hj
    by_cases hemp : st.images = []
    · simp [goto_image, hemp]
    · have hout : j - 1 < 0 ∨ (st.images.length : ℤ) ≤ j - 1 := by omega
      simp only [goto_image, if_neg hemp]
      rw [if_pos hout]
  · intro hemp
    refine ⟨?_, ?_, rfl, rfl, rfl, rfl, rfl, rfl⟩ <;>
      simp [rotate_left, rotate_right, get_data_ok, hemp]
  · intro x y w h img_width img_height ok
    unfold crop_and_ocr
    by_cases hg : st.images = [] ∨ st.images.length ≤ st.current_index
    · rw [if_pos hg]
    · rw [if_neg hg]
  · intro fs t image_name image_number hfs write_ok
    unfold rename_and_save_step
    cases hres : rename_and_save st fs t image_name image_number hfs with
    | error e => intro _; rfl
    | ok out =>
        cases write_ok with
        | true => intro hfalse; exact absurd hfalse (by simp)
        | false => intro _; rfl

/-- Witness for C8 (amended) at an empty session, an out-of-range index, a
concrete crop call, and a commit rejected by validation. -/
theorem c8_failure_leaves_state_witness :
    ((5 : ℤ) < 1 ∨ (((["a.jpg"] : List String).length : ℤ) < 5)) ∧
    goto_image ⟨["a.jpg"], 0, "", 0⟩ 5 = (⟨["a.jpg"], 0, "", 0⟩, false) ∧
    next_image ⟨[], 0, "", 0⟩ = (⟨[], 0, "", 0⟩, false) ∧
    (rotate_left ⟨[], 3, "", 0⟩).1.rotation = ((0 : ℤ) - 90) % 360 ∧
    (crop_and_ocr ⟨[], 0, "", 0⟩ 1 2 3 4 5 6 false).1 = ⟨[], 0, "", 0⟩ ∧
    (rename_and_save_step ⟨["x.jpg"], 0, "out", 0⟩ (fun _ => false) none
      "bad:name" ""
      (fs_empty_has_free (base_name "bad:name" "")
        (original_ext ((["x.jpg"] : List String).getD 0 ""))) true).2 = false ∧
    (rename_and_save_step ⟨["x.jpg"], 0, "out", 0⟩ (fun _ => false) none
      "bad:name" ""
      (fs_empty_has_free (base_name "bad:name" "")
        (original_ext ((["x.jpg"] : List String).getD 0 ""))) true).1 =
      ⟨["x.jpg"], 0, "out", 0⟩ := by
  refine ⟨by norm_num, ?_, ?_, ?_, ?_, rfl, ?_⟩
  · exact (c8_failure_leaves_state ⟨["a.jpg"], 0, "", 0⟩).2.1 5 (by norm_num)
  · exact ((c8_failure_leaves_state ⟨[], 0, "", 0⟩).1 rfl).1
  · exact ((c8_failure_leaves_state ⟨[], 3, "", 0⟩).2.2.1 rfl).2.2.2.2.2.2.1
  · exact (c8_failure_leaves_state ⟨[], 0, "", 0⟩).2.2.2.1 1 2 3 4 5 6 false
  · exact (c8_failure_leaves_state ⟨["x.jpg"], 0, "out", 0⟩).2.2.2.2
      (fun _ => false) none "bad:name" ""
      (fs_empty_has_free (base_name "bad:name" "")
        (original_ext ((["x.jpg"] : List String).getD 0 ""))) true rfl
